import Mathlib

/-!
Shallow embedding of the expo-permissions web backend
(packages/expo-permissions/src/ExpoPermissions.web.ts).

The browser host is modelled as a record of black-box capabilities: each
optional field stands for the presence of the corresponding navigator or
window API, and a fallible host call returns an explicit error value that
stands for a promise rejection or a thrown exception.  Every async
function of the source becomes a pure function over such a host record,
returning a value in Except when the source can propagate a rejection to
its caller.  Permission statuses are the status strings of the
PermissionStatus enum, because the notifications branch of the source
forwards raw browser permission strings into the result record.
-/

set_option autoImplicit false

namespace ExpoWeb

/-- Status string of the GRANTED member of the PermissionStatus enum. -/
def PermissionStatus.GRANTED : String := "granted"

/-- Status string of the DENIED member of the PermissionStatus enum. -/
def PermissionStatus.DENIED : String := "denied"

/-- Status string of the UNDETERMINED member of the PermissionStatus enum. -/
def PermissionStatus.UNDETERMINED : String := "undetermined"

/-- A thrown or rejected host error value: its name, message and numeric code. -/
structure HostError where
  name : String := ""
  message : String := ""
  code : Int := 0
  deriving DecidableEq

/-- The result record of a permission resolution: a status string and an
expiration marker. -/
structure PermissionInfo where
  status : String
  expires : String
  deriving DecidableEq

/-- The audio and video fields of a MediaStreamConstraints object; an absent
field is false. -/
structure MediaStreamConstraints where
  audio : Bool := false
  video : Bool := false
  deriving DecidableEq

/-- One entry of a media device enumeration: its kind tag and its label. -/
structure MediaDeviceInfo where
  kind : String
  label : String
  deriving DecidableEq

/-- Outcome of a geolocation getCurrentPosition call: the success callback,
or the error callback carrying a PositionError code. -/
inductive GeoOutcome where
  | success
  | failure (code : Int)
  deriving DecidableEq

/-- The window.Notification API when its requestPermission function exists:
the current permission string (possibly undefined) and the result of
calling requestPermission. -/
structure NotificationAPI where
  permission : Option String := none
  requestPermission : Except HostError String := Except.error {}

/-- A snapshot of the browser host.  A none field models an absent API. -/
structure Env where
  permissionsQuery : Option (String → Except HostError String) := none
  modernGetUserMedia : Option (MediaStreamConstraints → Except HostError Unit) := none
  legacyGetUserMedia : Option (MediaStreamConstraints → Except HostError Unit) := none
  geolocation : Option GeoOutcome := none
  enumerateDevicesApi : Option (Except HostError (List MediaDeviceInfo)) := none
  getSourcesApi : Option (Except HostError (List MediaDeviceInfo)) := none
  notification : Option NotificationAPI := none

/-- Source function getUserMedia wrapper: prefer the modern mediaDevices
API, fall back to a legacy callback API, and otherwise reject with the
hard-coded Permission unimplemented error. -/
def getUserMediaImpl (env : Env) (constraints : MediaStreamConstraints) :
    Except HostError Unit :=
  match env.modernGetUserMedia with
  | some getUserMedia => getUserMedia constraints
  | none =>
    match env.legacyGetUserMedia with
    | some getUserMedia => getUserMedia constraints
    | none =>
      Except.error { name := "NotAllowedError", message := "Permission unimplemented", code := 0 }

/-- Source askForMediaPermissionAsync: every failure of the media request is
caught, so the function is total on PermissionInfo. -/
def askForMediaPermissionAsync (env : Env) (options : MediaStreamConstraints) :
    PermissionInfo :=
  match getUserMediaImpl env options with
  | Except.ok _ => { status := PermissionStatus.GRANTED, expires := "never" }
  | Except.error e =>
    if e.message = "Permission dismissed" then
      { status := PermissionStatus.UNDETERMINED, expires := "never" }
    else
      { status := PermissionStatus.DENIED, expires := "never" }

/-- Source askForMicrophonePermissionAsync. -/
def askForMicrophonePermissionAsync (env : Env) : PermissionInfo :=
  askForMediaPermissionAsync env { audio := true }

/-- Source askForCameraPermissionAsync. -/
def askForCameraPermissionAsync (env : Env) : PermissionInfo :=
  askForMediaPermissionAsync env { video := true }

/-- Source askForLocationPermissionAsync.  A missing geolocation API makes
the promise executor throw, modelled as an error result; otherwise the
error callback is converted to a status, so no rejection occurs. -/
def askForLocationPermissionAsync (env : Env) : Except HostError PermissionInfo :=
  match env.geolocation with
  | none =>
    Except.error { name := "TypeError", message := "navigator.geolocation is undefined" }
  | some GeoOutcome.success =>
    Except.ok { status := PermissionStatus.GRANTED, expires := "never" }
  | some (GeoOutcome.failure code) =>
    if code = 1 then Except.ok { status := PermissionStatus.DENIED, expires := "never" }
    else Except.ok { status := PermissionStatus.UNDETERMINED, expires := "never" }

/-- Source getPermissionWithQueryAsync: null when the query API is missing
or the reported state string is unrecognized; a rejection of the query
itself propagates. -/
def getPermissionWithQueryAsync (env : Env) (name : String) :
    Except HostError (Option String) :=
  match env.permissionsQuery with
  | none => Except.ok none
  | some query =>
    match query name with
    | Except.error e => Except.error e
    | Except.ok state =>
      if state = "prompt" then Except.ok (some PermissionStatus.UNDETERMINED)
      else if state = "granted" then Except.ok (some PermissionStatus.GRANTED)
      else if state = "denied" then Except.ok (some PermissionStatus.DENIED)
      else Except.ok none

/-- Source enumerateDevices: the mediaDevices enumeration when present, else
the deprecated MediaStreamTrack getSources, else null. -/
def enumerateDevices (env : Env) : Except HostError (Option (List MediaDeviceInfo)) :=
  match env.enumerateDevicesApi with
  | some (Except.error e) => Except.error e
  | some (Except.ok devices) => Except.ok (some devices)
  | none =>
    match env.getSourcesApi with
    | some (Except.error e) => Except.error e
    | some (Except.ok devices) => Except.ok (some devices)
    | none => Except.ok none

/-- Source getMediaMaybeGrantedAsync: true when some enumerated device of
the target kind exposes a non-empty label. -/
def getMediaMaybeGrantedAsync (env : Env) (targetKind : String) :
    Except HostError Bool :=
  match enumerateDevices env with
  | Except.error e => Except.error e
  | Except.ok none => Except.ok false
  | Except.ok (some devices) =>
    Except.ok ((devices.filter fun d => d.kind == targetKind).any fun d => d.label != "")

/-- The window.Notification part of the notifications case of
getPermissionAsync: read the native permission string, or request it when
asking; an absent or falsy or default value maps to UNDETERMINED, any other
string is forwarded raw.  An ok none result models reaching the break. -/
def notificationsNative (env : Env) (shouldAsk : Bool) :
    Except HostError (Option PermissionInfo) :=
  match env.notification with
  | none => Except.ok none
  | some notif =>
    match (if shouldAsk then Except.map some notif.requestPermission
           else Except.ok notif.permission) with
    | Except.error e => Except.error e
    | Except.ok none =>
      Except.ok (some { status := PermissionStatus.UNDETERMINED, expires := "never" })
    | Except.ok (some s) =>
      if s = "" ∨ s = "default" then
        Except.ok (some { status := PermissionStatus.UNDETERMINED, expires := "never" })
      else Except.ok (some { status := s, expires := "never" })

/-- The userFacingNotifications and notifications case of getPermissionAsync:
when not asking, first try the capability query; otherwise, and on a null
query result, use the native Notification API. -/
def notificationsCase (env : Env) (shouldAsk : Bool) :
    Except HostError (Option PermissionInfo) :=
  if shouldAsk then notificationsNative env shouldAsk
  else
    match getPermissionWithQueryAsync env "notifications" with
    | Except.error e => Except.error e
    | Except.ok (some status) => Except.ok (some { status := status, expires := "never" })
    | Except.ok none => notificationsNative env shouldAsk

/-- The location case of getPermissionAsync. -/
def locationCase (env : Env) (shouldAsk : Bool) :
    Except HostError (Option PermissionInfo) :=
  match getPermissionWithQueryAsync env "geolocation" with
  | Except.error e => Except.error e
  | Except.ok (some maybeStatus) =>
    if maybeStatus = PermissionStatus.UNDETERMINED ∧ shouldAsk = true then
      match askForLocationPermissionAsync env with
      | Except.error e => Except.error e
      | Except.ok info => Except.ok (some info)
    else Except.ok (some { status := maybeStatus, expires := "never" })
  | Except.ok none =>
    if shouldAsk then
      match askForLocationPermissionAsync env with
      | Except.error e => Except.error e
      | Except.ok info => Except.ok (some info)
    else Except.ok none

/-- The audioRecording case of getPermissionAsync. -/
def audioRecordingCase (env : Env) (shouldAsk : Bool) :
    Except HostError (Option PermissionInfo) :=
  match getPermissionWithQueryAsync env "microphone" with
  | Except.error e => Except.error e
  | Except.ok (some maybeStatus) =>
    if maybeStatus = PermissionStatus.UNDETERMINED ∧ shouldAsk = true then
      Except.ok (some (askForMicrophonePermissionAsync env))
    else Except.ok (some { status := maybeStatus, expires := "never" })
  | Except.ok none =>
    if shouldAsk then Except.ok (some (askForMicrophonePermissionAsync env))
    else
      match getMediaMaybeGrantedAsync env "audioinput" with
      | Except.error e => Except.error e
      | Except.ok maybeGranted =>
        if maybeGranted then
          Except.ok (some { status := PermissionStatus.GRANTED, expires := "never" })
        else Except.ok none

/-- The camera case of getPermissionAsync. -/
def cameraCase (env : Env) (shouldAsk : Bool) :
    Except HostError (Option PermissionInfo) :=
  match getPermissionWithQueryAsync env "camera" with
  | Except.error e => Except.error e
  | Except.ok (some maybeStatus) =>
    if maybeStatus = PermissionStatus.UNDETERMINED ∧ shouldAsk = true then
      Except.ok (some (askForCameraPermissionAsync env))
    else Except.ok (some { status := maybeStatus, expires := "never" })
  | Except.ok none =>
    if shouldAsk then Except.ok (some (askForCameraPermissionAsync env))
    else
      match getMediaMaybeGrantedAsync env "videoinput" with
      | Except.error e => Except.error e
      | Except.ok maybeGranted =>
        if maybeGranted then
          Except.ok (some { status := PermissionStatus.GRANTED, expires := "never" })
        else Except.ok none

/-- The shared final return of getPermissionAsync, reached by every break. -/
def undeterminedInfo : PermissionInfo :=
  { status := PermissionStatus.UNDETERMINED, expires := "never" }

/-- Map the outcome of a case body to the outcome of getPermissionAsync: a
break (ok none) falls through to the UNDETERMINED return. -/
def fromCase : Except HostError (Option PermissionInfo) → Except HostError PermissionInfo
  | Except.error e => Except.error e
  | Except.ok (some info) => Except.ok info
  | Except.ok none => Except.ok undeterminedInfo

/-- Source getPermissionAsync: dispatch on the permission type string; a
case that breaks (ok none) falls through to the UNDETERMINED return. -/
def getPermissionAsync (env : Env) (permission : String) (shouldAsk : Bool) :
    Except HostError PermissionInfo :=
  fromCase
    (if permission = "userFacingNotifications" ∨ permission = "notifications" then
      notificationsCase env shouldAsk
    else if permission = "location" then locationCase env shouldAsk
    else if permission = "audioRecording" then audioRecordingCase env shouldAsk
    else if permission = "camera" then cameraCase env shouldAsk
    else Except.ok none)

/-- First-occurrence deduplication with an accumulator of keys already
seen: the iteration order of a JS Set built from the list. -/
def setDedupAux : List String → List String → List String
  | [], _ => []
  | x :: xs, seen =>
    if x ∈ seen then setDedupAux xs seen else x :: setDedupAux xs (x :: seen)

/-- The list of distinct permission types in first-occurrence order, as
iterated by new Set(permissionTypes). -/
def setDedup (l : List String) : List String := setDedupAux l []

/-- A PermissionMap as built by the batch loops: the requested type paired
with its resolved PermissionInfo, one entry per iterated type. -/
abbrev PermissionMap := List (String × PermissionInfo)

/-- The shared body of the batch loops: resolve each type in order, pairing
it with its PermissionInfo; the first rejection aborts the batch. -/
def resolveEach (env : Env) (shouldAsk : Bool) :
    List String → Except HostError PermissionMap
  | [] => Except.ok []
  | t :: ts =>
    match getPermissionAsync env t shouldAsk with
    | Except.error e => Except.error e
    | Except.ok info =>
      match resolveEach env shouldAsk ts with
      | Except.error e => Except.error e
      | Except.ok rest => Except.ok ((t, info) :: rest)

/-- Source getAsync: resolve every distinct requested type with shouldAsk
false. -/
def getAsync (env : Env) (permissionTypes : List String) :
    Except HostError PermissionMap :=
  resolveEach env false (setDedup permissionTypes)

/-- Source askAsync: resolve every distinct requested type with shouldAsk
true. -/
def askAsync (env : Env) (permissionTypes : List String) :
    Except HostError PermissionMap :=
  resolveEach env true (setDedup permissionTypes)

/-! ### Helper lemmas about set deduplication and the batch loop -/

/-- Membership in the dedup accumulator loop: exactly the list members not
already seen. -/
theorem mem_setDedupAux (a : String) (l : List String) : ∀ (seen : List String),
    a ∈ setDedupAux l seen ↔ (a ∈ l ∧ a ∉ seen) := by
  induction l with
  | nil => intro seen; simp [setDedupAux]
  | cons x xs ih =>
    intro seen
    simp only [setDedupAux]
    split
    · rename_i hx
      rw [ih seen]
      constructor
      · exact fun h => ⟨List.mem_cons_of_mem x h.1, h.2⟩
      · rintro ⟨h1, h2⟩
        rcases List.mem_cons.mp h1 with rfl | h1
        · exact absurd hx h2
        · exact ⟨h1, h2⟩
    · rename_i hx
      simp only [List.mem_cons, ih (x :: seen)]
      constructor
      · rintro (rfl | ⟨h1, h2⟩)
        · exact ⟨Or.inl rfl, hx⟩
        · exact ⟨Or.inr h1, fun hs => h2 (Or.inr hs)⟩
      · rintro ⟨h1, h2⟩
        by_cases hax : a = x
        · exact Or.inl hax
        · rcases h1 with rfl | h1
          · exact Or.inl rfl
          · exact Or.inr ⟨h1, fun hs => hs.elim hax h2⟩

/-- Membership is preserved by set deduplication. -/
theorem mem_setDedup (a : String) (l : List String) : a ∈ setDedup l ↔ a ∈ l := by
  rw [setDedup, mem_setDedupAux]
  simp

/-- The dedup accumulator loop emits no duplicate. -/
theorem nodup_setDedupAux (l : List String) : ∀ (seen : List String),
    (setDedupAux l seen).Nodup := by
  induction l with
  | nil => intro seen; simp [setDedupAux]
  | cons x xs ih =>
    intro seen
    simp only [setDedupAux]
    split
    · exact ih seen
    · rw [List.nodup_cons]
      refine ⟨fun hx => ?_, ih (x :: seen)⟩
      rw [mem_setDedupAux] at hx
      exact hx.2 (List.mem_cons_self x seen)

/-- Set deduplication yields a list without duplicates. -/
theorem nodup_setDedup (l : List String) : (setDedup l).Nodup :=
  nodup_setDedupAux l []

/-- Deduplicating a doubled singleton gives the singleton. -/
theorem setDedup_pair (x : String) : setDedup [x, x] = [x] := by
  simp [setDedup, setDedupAux]

/-- If every type in the list resolves, the batch loop succeeds. -/
theorem resolveEach_ok_of_forall (env : Env) (ask : Bool) (l : List String)
    (h : ∀ t ∈ l, ∃ i, getPermissionAsync env t ask = Except.ok i) :
    ∃ m, resolveEach env ask l = Except.ok m := by
  induction l with
  | nil => exact ⟨[], rfl⟩
  | cons t ts ih =>
    obtain ⟨i, hi⟩ := h t (List.mem_cons_self t ts)
    obtain ⟨m, hm⟩ := ih fun s hs => h s (List.mem_cons_of_mem t hs)
    exact ⟨(t, i) :: m, by simp only [resolveEach, hi, hm]⟩

/-- If the batch loop succeeds, every type in the list resolves. -/
theorem resolveEach_forall_of_ok (env : Env) (ask : Bool) (l : List String) :
    ∀ (m : PermissionMap), resolveEach env ask l = Except.ok m →
    ∀ t ∈ l, ∃ i, getPermissionAsync env t ask = Except.ok i := by
  induction l with
  | nil => intro m _ t ht; cases ht
  | cons s ts ih =>
    intro m hm t ht
    simp only [resolveEach] at hm
    cases hs : getPermissionAsync env s ask with
    | error e => simp only [hs] at hm; exact Except.noConfusion hm
    | ok i =>
      simp only [hs] at hm
      cases hr : resolveEach env ask ts with
      | error e => simp only [hr] at hm; exact Except.noConfusion hm
      | ok rest =>
        simp only [hr, Except.ok.injEq] at hm
        rcases List.mem_cons.mp ht with rfl | ht
        · exact ⟨i, hs⟩
        · exact ih rest hr t ht

/-- The keys of a successful batch are exactly the iterated list. -/
theorem resolveEach_keys (env : Env) (ask : Bool) (l : List String) :
    ∀ (m : PermissionMap), resolveEach env ask l = Except.ok m →
    m.map Prod.fst = l := by
  induction l with
  | nil =>
    intro m hm
    simp only [resolveEach, Except.ok.injEq] at hm
    simp [← hm]
  | cons s ts ih =>
    intro m hm
    simp only [resolveEach] at hm
    cases hs : getPermissionAsync env s ask with
    | error e => simp only [hs] at hm; exact Except.noConfusion hm
    | ok i =>
      simp only [hs] at hm
      cases hr : resolveEach env ask ts with
      | error e => simp only [hr] at hm; exact Except.noConfusion hm
      | ok rest =>
        simp only [hr, Except.ok.injEq] at hm
        subst hm
        simp [ih rest hr]

/-- Lookup in a successful batch: the resolved info of the type when the
type was iterated, none otherwise. -/
theorem resolveEach_lookup (env : Env) (ask : Bool) (l : List String) :
    ∀ (m : PermissionMap), resolveEach env ask l = Except.ok m →
    ∀ t : String, m.lookup t =
      if t ∈ l then (getPermissionAsync env t ask).toOption else none := by
  induction l with
  | nil =>
    intro m hm t
    simp only [resolveEach, Except.ok.injEq] at hm
    simp [← hm]
  | cons s ts ih =>
    intro m hm t
    simp only [resolveEach] at hm
    cases hs : getPermissionAsync env s ask with
    | error e => simp only [hs] at hm; exact Except.noConfusion hm
    | ok i =>
      simp only [hs] at hm
      cases hr : resolveEach env ask ts with
      | error e => simp only [hr] at hm; exact Except.noConfusion hm
      | ok rest =>
        simp only [hr, Except.ok.injEq] at hm
        subst hm
        by_cases hts : t = s
        · subst hts
          simp [List.lookup_cons, hs, Except.toOption]
        · rw [List.lookup_cons]
          simp only [beq_false_of_ne hts, ih rest hr t, List.mem_cons]
          by_cases hmem : t ∈ ts
          · simp [hmem]
          · simp [hmem, hts]

/-! ### Dispatch lemmas for getPermissionAsync -/

/-- The notifications type dispatches to the notifications case. -/
theorem getPermissionAsync_notifications (env : Env) (ask : Bool) :
    getPermissionAsync env "notifications" ask = fromCase (notificationsCase env ask) := by
  simp [getPermissionAsync]

/-- The userFacingNotifications type dispatches to the notifications case. -/
theorem getPermissionAsync_userFacingNotifications (env : Env) (ask : Bool) :
    getPermissionAsync env "userFacingNotifications" ask =
      fromCase (notificationsCase env ask) := by
  simp [getPermissionAsync]

/-- The location type dispatches to the location case. -/
theorem getPermissionAsync_location (env : Env) (ask : Bool) :
    getPermissionAsync env "location" ask = fromCase (locationCase env ask) := by
  simp [getPermissionAsync]

/-- The audioRecording type dispatches to the audioRecording case. -/
theorem getPermissionAsync_audioRecording (env : Env) (ask : Bool) :
    getPermissionAsync env "audioRecording" ask = fromCase (audioRecordingCase env ask) := by
  simp [getPermissionAsync]

/-- The camera type dispatches to the camera case. -/
theorem getPermissionAsync_camera (env : Env) (ask : Bool) :
    getPermissionAsync env "camera" ask = fromCase (cameraCase env ask) := by
  simp [getPermissionAsync]

/-- An unrecognized type reaches the default case and returns UNDETERMINED. -/
theorem getPermissionAsync_unknown (env : Env) (p : String) (ask : Bool)
    (h1 : p ≠ "userFacingNotifications") (h2 : p ≠ "notifications")
    (h3 : p ≠ "location") (h4 : p ≠ "audioRecording") (h5 : p ≠ "camera") :
    getPermissionAsync env p ask = Except.ok undeterminedInfo := by
  simp [getPermissionAsync, fromCase, h1, h2, h3, h4, h5]

/-! ### Every produced PermissionInfo expires never -/

/-- The media request resolver always stamps expires never. -/
theorem askForMediaPermissionAsync_expires (env : Env) (o : MediaStreamConstraints) :
    (askForMediaPermissionAsync env o).expires = "never" := by
  unfold askForMediaPermissionAsync
  split
  · rfl
  · split <;> rfl

/-- The location request resolver always stamps expires never. -/
theorem askForLocationPermissionAsync_expires (env : Env) (i : PermissionInfo)
    (h : askForLocationPermissionAsync env = Except.ok i) : i.expires = "never" := by
  unfold askForLocationPermissionAsync at h
  split at h
  · exact Except.noConfusion h
  · injection h with h; rw [← h]
  · split at h <;> (injection h with h; rw [← h])

/-- The native notifications path always stamps expires never. -/
theorem notificationsNative_expires (env : Env) (ask : Bool) (i : PermissionInfo)
    (h : notificationsNative env ask = Except.ok (some i)) : i.expires = "never" := by
  unfold notificationsNative at h
  split at h
  · simp at h
  · split at h
    · exact Except.noConfusion h
    · simp only [Except.ok.injEq, Option.some.injEq] at h; rw [← h]
    · split at h <;> (simp only [Except.ok.injEq, Option.some.injEq] at h; rw [← h])

/-- The notifications case always stamps expires never. -/
theorem notificationsCase_expires (env : Env) (ask : Bool) (i : PermissionInfo)
    (h : notificationsCase env ask = Except.ok (some i)) : i.expires = "never" := by
  unfold notificationsCase at h
  split at h
  · exact notificationsNative_expires env ask i h
  · split at h
    · exact Except.noConfusion h
    · simp only [Except.ok.injEq, Option.some.injEq] at h; rw [← h]
    · exact notificationsNative_expires env ask i h

/-- The location case always stamps expires never. -/
theorem locationCase_expires (env : Env) (ask : Bool) (i : PermissionInfo)
    (h : locationCase env ask = Except.ok (some i)) : i.expires = "never" := by
  unfold locationCase at h
  split at h
  · exact Except.noConfusion h
  · split at h
    · split at h
      · exact Except.noConfusion h
      · rename_i info heq
        simp only [Except.ok.injEq, Option.some.injEq] at h
        rw [← h]
        exact askForLocationPermissionAsync_expires env info heq
    · simp only [Except.ok.injEq, Option.some.injEq] at h; rw [← h]
  · split at h
    · split at h
      · exact Except.noConfusion h
      · rename_i info heq
        simp only [Except.ok.injEq, Option.some.injEq] at h
        rw [← h]
        exact askForLocationPermissionAsync_expires env info heq
    · simp at h

/-- The audioRecording case always stamps expires never. -/
theorem audioRecordingCase_expires (env : Env) (ask : Bool) (i : PermissionInfo)
    (h : audioRecordingCase env ask = Except.ok (some i)) : i.expires = "never" := by
  unfold audioRecordingCase at h
  split at h
  · exact Except.noConfusion h
  · split at h <;>
      (simp only [Except.ok.injEq, Option.some.injEq] at h; rw [← h])
    exact askForMediaPermissionAsync_expires env { audio := true }
  · split at h
    · simp only [Except.ok.injEq, Option.some.injEq] at h; rw [← h]
      exact askForMediaPermissionAsync_expires env { audio := true }
    · split at h
      · exact Except.noConfusion h
      · split at h
        · simp only [Except.ok.injEq, Option.some.injEq] at h; rw [← h]
        · simp at h

/-- The camera case always stamps expires never. -/
theorem cameraCase_expires (env : Env) (ask : Bool) (i : PermissionInfo)
    (h : cameraCase env ask = Except.ok (some i)) : i.expires = "never" := by
  unfold cameraCase at h
  split at h
  · exact Except.noConfusion h
  · split at h <;>
      (simp only [Except.ok.injEq, Option.some.injEq] at h; rw [← h])
    exact askForMediaPermissionAsync_expires env { video := true }
  · split at h
    · simp only [Except.ok.injEq, Option.some.injEq] at h; rw [← h]
      exact askForMediaPermissionAsync_expires env { video := true }
    · split at h
      · exact Except.noConfusion h
      · split at h
        · simp only [Except.ok.injEq, Option.some.injEq] at h; rw [← h]
        · simp at h

/-- Lift expires preservation through the fall-through wrapper. -/
theorem fromCase_expires (c : Except HostError (Option PermissionInfo)) (i : PermissionInfo)
    (hc : ∀ j, c = Except.ok (some j) → j.expires = "never")
    (h : fromCase c = Except.ok i) : i.expires = "never" := by
  unfold fromCase at h
  split at h
  · exact Except.noConfusion h
  · injection h with h; rw [← h]; exact hc _ rfl
  · injection h with h; rw [← h]; rfl

/-- Every PermissionInfo returned by the resolver expires never. -/
theorem getPermissionAsync_expires (env : Env) (p : String) (ask : Bool) (i : PermissionInfo)
    (h : getPermissionAsync env p ask = Except.ok i) : i.expires = "never" := by
  unfold getPermissionAsync at h
  refine fromCase_expires _ i (fun j hj => ?_) h
  split at hj
  · exact notificationsCase_expires env ask j hj
  · split at hj
    · exact locationCase_expires env ask j hj
    · split at hj
      · exact audioRecordingCase_expires env ask j hj
      · split at hj
        · exact cameraCase_expires env ask j hj
        · simp at hj

/-- Every entry of a successful batch expires never. -/
theorem resolveEach_expires (env : Env) (ask : Bool) (l : List String) :
    ∀ (m : PermissionMap), resolveEach env ask l = Except.ok m →
    ∀ p ∈ m, p.2.expires = "never" := by
  induction l with
  | nil =>
    intro m hm p hp
    simp only [resolveEach, Except.ok.injEq] at hm
    rw [← hm] at hp
    cases hp
  | cons s ts ih =>
    intro m hm p hp
    simp only [resolveEach] at hm
    cases hs : getPermissionAsync env s ask with
    | error e => simp only [hs] at hm; exact Except.noConfusion hm
    | ok i =>
      simp only [hs] at hm
      cases hr : resolveEach env ask ts with
      | error e => simp only [hr] at hm; exact Except.noConfusion hm
      | ok rest =>
        simp only [hr, Except.ok.injEq] at hm
        rw [← hm] at hp
        rcases List.mem_cons.mp hp with rfl | hp
        · exact getPermissionAsync_expires env s ask i hs
        · exact ih rest hr p hp

/-! ### Success of resolution when the host collaborators resolve normally -/

/-- A query API whose calls all resolve yields an ok query result. -/
theorem getPermissionWithQueryAsync_ok (env : Env)
    (hq : ∀ q, env.permissionsQuery = some q → ∀ n, ∃ s, q n = Except.ok s)
    (name : String) :
    ∃ r, getPermissionWithQueryAsync env name = Except.ok r := by
  unfold getPermissionWithQueryAsync
  cases hpq : env.permissionsQuery with
  | none => exact ⟨none, rfl⟩
  | some q =>
    obtain ⟨s, hs⟩ := hq q hpq name
    simp only [hpq, hs]
    split
    · exact ⟨_, rfl⟩
    · split
      · exact ⟨_, rfl⟩
      · split
        · exact ⟨_, rfl⟩
        · exact ⟨_, rfl⟩

/-- Resolving enumeration APIs yield an ok device check. -/
theorem getMediaMaybeGrantedAsync_ok (env : Env)
    (hed : ∀ r, env.enumerateDevicesApi = some r → ∃ d, r = Except.ok d)
    (hgs : ∀ r, env.getSourcesApi = some r → ∃ d, r = Except.ok d)
    (kind : String) :
    ∃ b, getMediaMaybeGrantedAsync env kind = Except.ok b := by
  unfold getMediaMaybeGrantedAsync enumerateDevices
  cases he : env.enumerateDevicesApi with
  | some r =>
    obtain ⟨d, hd⟩ := hed r he
    subst hd
    simp only [he]
    exact ⟨_, rfl⟩
  | none =>
    simp only [he]
    cases hg : env.getSourcesApi with
    | some r =>
      obtain ⟨d, hd⟩ := hgs r hg
      subst hd
      simp only [hg]
      exact ⟨_, rfl⟩
    | none =>
      simp only [hg]
      exact ⟨_, rfl⟩

/-- A present geolocation API makes the location request resolve. -/
theorem askForLocationPermissionAsync_ok (env : Env) (g : GeoOutcome)
    (hgeo : env.geolocation = some g) :
    ∃ i, askForLocationPermissionAsync env = Except.ok i := by
  unfold askForLocationPermissionAsync
  cases g with
  | success => simp only [hgeo]; exact ⟨_, rfl⟩
  | failure code =>
    simp only [hgeo]
    split
    · exact ⟨_, rfl⟩
    · exact ⟨_, rfl⟩

/-- A resolving requestPermission makes the native notifications path
resolve. -/
theorem notificationsNative_ok (env : Env)
    (hn : ∀ nf, env.notification = some nf → ∃ s, nf.requestPermission = Except.ok s)
    (ask : Bool) :
    ∃ r, notificationsNative env ask = Except.ok r := by
  unfold notificationsNative
  cases he : env.notification with
  | none => exact ⟨_, rfl⟩
  | some nf =>
    obtain ⟨s, hs⟩ := hn nf he
    cases ask with
    | true =>
      simp only [hs, Except.map, eq_self_iff_true, if_true]
      split
      · exact ⟨_, rfl⟩
      · exact ⟨_, rfl⟩
    | false =>
      simp only [Bool.false_eq_true, if_false]
      cases hp : nf.permission with
      | none => simp only [hp]; exact ⟨_, rfl⟩
      | some s0 =>
        simp only [hp]
        split
        · exact ⟨_, rfl⟩
        · exact ⟨_, rfl⟩

/-- The notifications case resolves when the query and the Notification API
resolve. -/
theorem notificationsCase_ok (env : Env)
    (hq : ∀ q, env.permissionsQuery = some q → ∀ n, ∃ s, q n = Except.ok s)
    (hn : ∀ nf, env.notification = some nf → ∃ s, nf.requestPermission = Except.ok s)
    (ask : Bool) :
    ∃ r, notificationsCase env ask = Except.ok r := by
  unfold notificationsCase
  cases ask with
  | true => simpa using notificationsNative_ok env hn true
  | false =>
    simp only [Bool.false_eq_true, if_false]
    obtain ⟨r, hr⟩ := getPermissionWithQueryAsync_ok env hq "notifications"
    rw [hr]
    cases r with
    | none => simpa using notificationsNative_ok env hn false
    | some status => exact ⟨_, rfl⟩

/-- The location case resolves when the query resolves and geolocation is
present. -/
theorem locationCase_ok (env : Env)
    (hq : ∀ q, env.permissionsQuery = some q → ∀ n, ∃ s, q n = Except.ok s)
    (g : GeoOutcome) (hgeo : env.geolocation = some g) (ask : Bool) :
    ∃ r, locationCase env ask = Except.ok r := by
  unfold locationCase
  obtain ⟨r, hr⟩ := getPermissionWithQueryAsync_ok env hq "geolocation"
  rw [hr]
  obtain ⟨i, hi⟩ := askForLocationPermissionAsync_ok env g hgeo
  cases r with
  | none =>
    cases ask with
    | true => simp only [if_pos rfl, hi]; exact ⟨_, rfl⟩
    | false => exact ⟨_, rfl⟩
  | some status =>
    simp only
    split
    · rw [hi]; exact ⟨_, rfl⟩
    · exact ⟨_, rfl⟩

/-- The audioRecording case resolves when the query and the enumeration
APIs resolve. -/
theorem audioRecordingCase_ok (env : Env)
    (hq : ∀ q, env.permissionsQuery = some q → ∀ n, ∃ s, q n = Except.ok s)
    (hed : ∀ r, env.enumerateDevicesApi = some r → ∃ d, r = Except.ok d)
    (hgs : ∀ r, env.getSourcesApi = some r → ∃ d, r = Except.ok d)
    (ask : Bool) :
    ∃ r, audioRecordingCase env ask = Except.ok r := by
  unfold audioRecordingCase
  obtain ⟨r, hr⟩ := getPermissionWithQueryAsync_ok env hq "microphone"
  rw [hr]
  cases r with
  | none =>
    cases ask with
    | true => exact ⟨_, rfl⟩
    | false =>
      obtain ⟨b, hb⟩ := getMediaMaybeGrantedAsync_ok env hed hgs "audioinput"
      simp only [Bool.false_eq_true, if_false, hb]
      split
      · exact ⟨_, rfl⟩
      · exact ⟨_, rfl⟩
  | some status =>
    simp only
    split
    · exact ⟨_, rfl⟩
    · exact ⟨_, rfl⟩

/-- The camera case resolves when the query and the enumeration APIs
resolve. -/
theorem cameraCase_ok (env : Env)
    (hq : ∀ q, env.permissionsQuery = some q → ∀ n, ∃ s, q n = Except.ok s)
    (hed : ∀ r, env.enumerateDevicesApi = some r → ∃ d, r = Except.ok d)
    (hgs : ∀ r, env.getSourcesApi = some r → ∃ d, r = Except.ok d)
    (ask : Bool) :
    ∃ r, cameraCase env ask = Except.ok r := by
  unfold cameraCase
  obtain ⟨r, hr⟩ := getPermissionWithQueryAsync_ok env hq "camera"
  rw [hr]
  cases r with
  | none =>
    cases ask with
    | true => exact ⟨_, rfl⟩
    | false =>
      obtain ⟨b, hb⟩ := getMediaMaybeGrantedAsync_ok env hed hgs "videoinput"
      simp only [Bool.false_eq_true, if_false, hb]
      split
      · exact ⟨_, rfl⟩
      · exact ⟨_, rfl⟩
  | some status =>
    simp only
    split
    · exact ⟨_, rfl⟩
    · exact ⟨_, rfl⟩

/-- The fall-through wrapper preserves success. -/
theorem fromCase_ok (c : Except HostError (Option PermissionInfo))
    (h : ∃ r, c = Except.ok r) : ∃ i, fromCase c = Except.ok i := by
  obtain ⟨r, hr⟩ := h
  subst hr
  cases r with
  | none => exact ⟨_, rfl⟩
  | some info => exact ⟨_, rfl⟩

/-! ### Behaviour of the capability query in distinguished host states -/

/-- With no query API the query helper reports null. -/
theorem getPermissionWithQueryAsync_noApi (env : Env) (hq : env.permissionsQuery = none)
    (name : String) : getPermissionWithQueryAsync env name = Except.ok none := by
  unfold getPermissionWithQueryAsync
  rw [hq]

/-- A query API reporting granted yields a granted query result. -/
theorem getPermissionWithQueryAsync_granted (env : Env)
    (q : String → Except HostError String) (hq : env.permissionsQuery = some q)
    (hg : ∀ n, q n = Except.ok "granted") (name : String) :
    getPermissionWithQueryAsync env name = Except.ok (some PermissionStatus.GRANTED) := by
  unfold getPermissionWithQueryAsync
  simp [hq, hg name, PermissionStatus.GRANTED]

/-- A granted query makes the location case return GRANTED for every flag. -/
theorem locationCase_granted (env : Env) (q : String → Except HostError String)
    (hq : env.permissionsQuery = some q) (hg : ∀ n, q n = Except.ok "granted") (ask : Bool) :
    locationCase env ask =
      Except.ok (some { status := PermissionStatus.GRANTED, expires := "never" }) := by
  unfold locationCase
  rw [getPermissionWithQueryAsync_granted env q hq hg "geolocation"]
  simp [PermissionStatus.GRANTED, PermissionStatus.UNDETERMINED]

/-- A granted query makes the audioRecording case return GRANTED for every
flag. -/
theorem audioRecordingCase_granted (env : Env) (q : String → Except HostError String)
    (hq : env.permissionsQuery = some q) (hg : ∀ n, q n = Except.ok "granted") (ask : Bool) :
    audioRecordingCase env ask =
      Except.ok (some { status := PermissionStatus.GRANTED, expires := "never" }) := by
  unfold audioRecordingCase
  rw [getPermissionWithQueryAsync_granted env q hq hg "microphone"]
  simp [PermissionStatus.GRANTED, PermissionStatus.UNDETERMINED]

/-- A granted query makes the camera case return GRANTED for every flag. -/
theorem cameraCase_granted (env : Env) (q : String → Except HostError String)
    (hq : env.permissionsQuery = some q) (hg : ∀ n, q n = Except.ok "granted") (ask : Bool) :
    cameraCase env ask =
      Except.ok (some { status := PermissionStatus.GRANTED, expires := "never" }) := by
  unfold cameraCase
  rw [getPermissionWithQueryAsync_granted env q hq hg "camera"]
  simp [PermissionStatus.GRANTED, PermissionStatus.UNDETERMINED]

/-- A granted query makes the notifications case return GRANTED when not
asking. -/
theorem notificationsCase_granted (env : Env) (q : String → Except HostError String)
    (hq : env.permissionsQuery = some q) (hg : ∀ n, q n = Except.ok "granted") :
    notificationsCase env false =
      Except.ok (some { status := PermissionStatus.GRANTED, expires := "never" }) := by
  unfold notificationsCase
  rw [if_neg (by simp), getPermissionWithQueryAsync_granted env q hq hg "notifications"]

/-- Asking for audioRecording with no query API requests the microphone. -/
theorem audioRecordingCase_ask_noQuery (env : Env) (hq : env.permissionsQuery = none) :
    audioRecordingCase env true = Except.ok (some (askForMicrophonePermissionAsync env)) := by
  unfold audioRecordingCase
  rw [getPermissionWithQueryAsync_noApi env hq]
  simp

/-- Asking for camera with no query API requests the camera. -/
theorem cameraCase_ask_noQuery (env : Env) (hq : env.permissionsQuery = none) :
    cameraCase env true = Except.ok (some (askForCameraPermissionAsync env)) := by
  unfold cameraCase
  rw [getPermissionWithQueryAsync_noApi env hq]
  simp

/-- The resolver on audioRecording with no query API and asking returns the
media request outcome. -/
theorem getPermissionAsync_audioRecording_ask_noQuery (env : Env)
    (hq : env.permissionsQuery = none) :
    getPermissionAsync env "audioRecording" true =
      Except.ok (askForMicrophonePermissionAsync env) := by
  rw [getPermissionAsync_audioRecording, audioRecordingCase_ask_noQuery env hq]
  rfl

/-- The resolver on camera with no query API and asking returns the media
request outcome. -/
theorem getPermissionAsync_camera_ask_noQuery (env : Env)
    (hq : env.permissionsQuery = none) :
    getPermissionAsync env "camera" true = Except.ok (askForCameraPermissionAsync env) := by
  rw [getPermissionAsync_camera, cameraCase_ask_noQuery env hq]
  rfl

/-- The resolver on location with no query API and asking returns the
geolocation request outcome. -/
theorem getPermissionAsync_location_ask_noQuery (env : Env)
    (hq : env.permissionsQuery = none) (i : PermissionInfo)
    (h : askForLocationPermissionAsync env = Except.ok i) :
    getPermissionAsync env "location" true = Except.ok i := by
  rw [getPermissionAsync_location]
  unfold locationCase
  rw [getPermissionWithQueryAsync_noApi env hq]
  simp [h, fromCase]

/-! ### Claim theorems -/

/-- C3: for every permission type that is not one of the recognized types
(notifications, userFacingNotifications, location, audioRecording, camera)
and every value of shouldAsk, resolution returns PermissionInfo with status
UNDETERMINED. -/
theorem unrecognized_type_resolves_undetermined (env : Env) (p : String) (ask : Bool)
    (h : p ∉ ["notifications", "userFacingNotifications", "location",
              "audioRecording", "camera"]) :
    getPermissionAsync env p ask =
      Except.ok { status := PermissionStatus.UNDETERMINED, expires := "never" } := by
  simp only [List.mem_cons, List.not_mem_nil, or_false, not_or] at h
  obtain ⟨h1, h2, h3, h4, h5⟩ := h
  exact getPermissionAsync_unknown env p ask h2 h1 h3 h4 h5

/-- C3 witness: the unrecognized type contacts resolves UNDETERMINED. -/
theorem unrecognized_type_resolves_undetermined_witness :
    ("contacts" ∉ ["notifications", "userFacingNotifications", "location",
                   "audioRecording", "camera"]) ∧
    getPermissionAsync {} "contacts" true =
      Except.ok { status := PermissionStatus.UNDETERMINED, expires := "never" } :=
  ⟨by decide, unrecognized_type_resolves_undetermined {} "contacts" true (by decide)⟩

/-- C10: for every host environment and every value of shouldAsk, resolving
userFacingNotifications returns exactly the same PermissionInfo outcome as
resolving notifications. -/
theorem userFacingNotifications_alias_of_notifications (env : Env) (ask : Bool) :
    getPermissionAsync env "userFacingNotifications" ask =
      getPermissionAsync env "notifications" ask := by
  rw [getPermissionAsync_userFacingNotifications, getPermissionAsync_notifications]

/-- C4: for a camera or microphone media request made while asking with no
query support, success yields GRANTED, a failure whose message equals
Permission dismissed yields UNDETERMINED, and a failure with any other
message yields DENIED. -/
theorem media_request_outcome_mapping (env : Env) (p : String)
    (c : MediaStreamConstraints) (hq : env.permissionsQuery = none)
    (hp : (p = "audioRecording" ∧ c = { audio := true }) ∨
          (p = "camera" ∧ c = { video := true })) :
    ((getUserMediaImpl env c).isOk = true →
      getPermissionAsync env p true =
        Except.ok { status := PermissionStatus.GRANTED, expires := "never" }) ∧
    (∀ e, getUserMediaImpl env c = Except.error e → e.message = "Permission dismissed" →
      getPermissionAsync env p true =
        Except.ok { status := PermissionStatus.UNDETERMINED, expires := "never" }) ∧
    (∀ e, getUserMediaImpl env c = Except.error e → e.message ≠ "Permission dismissed" →
      getPermissionAsync env p true =
        Except.ok { status := PermissionStatus.DENIED, expires := "never" }) := by
  rcases hp with ⟨rfl, rfl⟩ | ⟨rfl, rfl⟩
  · refine ⟨fun hk => ?_, fun e he hmsg => ?_, fun e he hmsg => ?_⟩
    · rw [getPermissionAsync_audioRecording_ask_noQuery env hq]
      unfold askForMicrophonePermissionAsync askForMediaPermissionAsync
      cases hu : getUserMediaImpl env { audio := true } with
      | ok u => simp
      | error e => rw [hu] at hk; simp [Except.isOk, Except.toBool] at hk
    · rw [getPermissionAsync_audioRecording_ask_noQuery env hq]
      unfold askForMicrophonePermissionAsync askForMediaPermissionAsync
      simp [he, hmsg]
    · rw [getPermissionAsync_audioRecording_ask_noQuery env hq]
      unfold askForMicrophonePermissionAsync askForMediaPermissionAsync
      simp [he, hmsg]
  · refine ⟨fun hk => ?_, fun e he hmsg => ?_, fun e he hmsg => ?_⟩
    · rw [getPermissionAsync_camera_ask_noQuery env hq]
      unfold askForCameraPermissionAsync askForMediaPermissionAsync
      cases hu : getUserMediaImpl env { video := true } with
      | ok u => simp
      | error e => rw [hu] at hk; simp [Except.isOk, Except.toBool] at hk
    · rw [getPermissionAsync_camera_ask_noQuery env hq]
      unfold askForCameraPermissionAsync askForMediaPermissionAsync
      simp [he, hmsg]
    · rw [getPermissionAsync_camera_ask_noQuery env hq]
      unfold askForCameraPermissionAsync askForMediaPermissionAsync
      simp [he, hmsg]

/-- Host whose media request is dismissed by the user. -/
def envDismissedMedia : Env :=
  { modernGetUserMedia := some fun _ =>
      Except.error { name := "NotAllowedError", message := "Permission dismissed" } }

/-- C4 witness: a dismissed camera request resolves UNDETERMINED. -/
theorem media_request_outcome_mapping_witness :
    getPermissionAsync envDismissedMedia "camera" true =
      Except.ok { status := PermissionStatus.UNDETERMINED, expires := "never" } :=
  (media_request_outcome_mapping envDismissedMedia "camera" { video := true } rfl
    (Or.inr ⟨rfl, rfl⟩)).2.1
    { name := "NotAllowedError", message := "Permission dismissed" } rfl rfl

/-- C5: with no query support and asking for location, a geolocation
success yields GRANTED, a failure with code 1 yields DENIED, and a failure
with any other code yields UNDETERMINED. -/
theorem location_request_outcome_mapping (env : Env) (hq : env.permissionsQuery = none) :
    (env.geolocation = some GeoOutcome.success →
      getPermissionAsync env "location" true =
        Except.ok { status := PermissionStatus.GRANTED, expires := "never" }) ∧
    (∀ code : Int, env.geolocation = some (GeoOutcome.failure code) →
      getPermissionAsync env "location" true =
        Except.ok (if code = 1 then { status := PermissionStatus.DENIED, expires := "never" }
          else { status := PermissionStatus.UNDETERMINED, expires := "never" })) := by
  constructor
  · intro hg
    refine getPermissionAsync_location_ask_noQuery env hq _ ?_
    unfold askForLocationPermissionAsync
    rw [hg]
  · intro code hg
    by_cases hc : code = 1
    · rw [if_pos hc]
      refine getPermissionAsync_location_ask_noQuery env hq _ ?_
      unfold askForLocationPermissionAsync
      simp only [hg]
      rw [if_pos hc]
    · rw [if_neg hc]
      refine getPermissionAsync_location_ask_noQuery env hq _ ?_
      unfold askForLocationPermissionAsync
      simp only [hg]
      rw [if_neg hc]

/-- Host whose geolocation request fails with the permission denied code. -/
def envGeoDenied : Env := { geolocation := some (GeoOutcome.failure 1) }

/-- C5 witness: a geolocation failure with code 1 resolves DENIED. -/
theorem location_request_outcome_mapping_witness :
    getPermissionAsync envGeoDenied "location" true =
      Except.ok { status := PermissionStatus.DENIED, expires := "never" } := by
  have h := (location_request_outcome_mapping envGeoDenied rfl).2 1 rfl
  simpa using h

/-- C9: for notifications with no capability query and a native
Notification API exposing requestPermission, a native permission value that
is absent or equal to default maps to UNDETERMINED, whether the value was
read passively or obtained by requesting when shouldAsk is true. -/
theorem notifications_default_is_undetermined (env : Env) (nf : NotificationAPI)
    (hq : env.permissionsQuery = none) (hn : env.notification = some nf) :
    ((nf.permission = none ∨ nf.permission = some "default") →
      getPermissionAsync env "notifications" false =
        Except.ok { status := PermissionStatus.UNDETERMINED, expires := "never" }) ∧
    (nf.requestPermission = Except.ok "default" →
      getPermissionAsync env "notifications" true =
        Except.ok { status := PermissionStatus.UNDETERMINED, expires := "never" }) := by
  constructor
  · intro hper
    rw [getPermissionAsync_notifications]
    unfold notificationsCase
    simp only [Bool.false_eq_true, if_false, getPermissionWithQueryAsync_noApi env hq]
    unfold notificationsNative
    simp only [hn, Bool.false_eq_true, if_false]
    rcases hper with hper | hper <;> simp [hper, fromCase]
  · intro hreq
    rw [getPermissionAsync_notifications]
    unfold notificationsCase notificationsNative
    simp [hn, hreq, Except.map, fromCase]

/-- Host with default native notification permission and a request that
reports default. -/
def envNotifDefault : Env :=
  { notification := some { permission := some "default",
                           requestPermission := Except.ok "default" } }

/-- C9 witness: a default native notification value resolves UNDETERMINED
both passively and when requesting. -/
theorem notifications_default_is_undetermined_witness :
    getPermissionAsync envNotifDefault "notifications" false =
      Except.ok { status := PermissionStatus.UNDETERMINED, expires := "never" } ∧
    getPermissionAsync envNotifDefault "notifications" true =
      Except.ok { status := PermissionStatus.UNDETERMINED, expires := "never" } :=
  ⟨(notifications_default_is_undetermined envNotifDefault _ rfl rfl).1 (Or.inr rfl),
   (notifications_default_is_undetermined envNotifDefault _ rfl rfl).2 rfl⟩

/-- The device-label check returns exactly the any-over-filter value on the
enumerated devices. -/
theorem getMediaMaybeGrantedAsync_enumerated (env : Env) (devices : List MediaDeviceInfo)
    (hd : env.enumerateDevicesApi = some (Except.ok devices)) (kind : String) :
    getMediaMaybeGrantedAsync env kind =
      Except.ok ((devices.filter fun d => d.kind == kind).any fun d => d.label != "") := by
  unfold getMediaMaybeGrantedAsync enumerateDevices
  rw [hd]

/-- The any-over-filter device check holds exactly when some device of the
kind has a non-empty label. -/
theorem any_filter_label_iff (devices : List MediaDeviceInfo) (kind : String) :
    (((devices.filter fun d => d.kind == kind).any fun d => d.label != "") = true) ↔
      ∃ d ∈ devices, d.kind = kind ∧ d.label ≠ "" := by
  simp only [List.any_eq_true, List.mem_filter, beq_iff_eq, bne_iff_ne, ne_eq]
  constructor
  · rintro ⟨d, ⟨hmem, hkind⟩, hlabel⟩
    exact ⟨d, hmem, hkind, hlabel⟩
  · rintro ⟨d, hmem, hkind, hlabel⟩
    exact ⟨d, ⟨hmem, hkind⟩, hlabel⟩

/-- The audioRecording case with no query and not asking reduces to the
device-label check. -/
theorem audioRecordingCase_noAsk_noQuery (env : Env) (hq : env.permissionsQuery = none)
    (b : Bool) (hb : getMediaMaybeGrantedAsync env "audioinput" = Except.ok b) :
    audioRecordingCase env false =
      (if b then Except.ok (some { status := PermissionStatus.GRANTED, expires := "never" })
       else Except.ok none) := by
  unfold audioRecordingCase
  rw [getPermissionWithQueryAsync_noApi env hq]
  simp only [Bool.false_eq_true, if_false, hb]

/-- The camera case with no query and not asking reduces to the
device-label check. -/
theorem cameraCase_noAsk_noQuery (env : Env) (hq : env.permissionsQuery = none)
    (b : Bool) (hb : getMediaMaybeGrantedAsync env "videoinput" = Except.ok b) :
    cameraCase env false =
      (if b then Except.ok (some { status := PermissionStatus.GRANTED, expires := "never" })
       else Except.ok none) := by
  unfold cameraCase
  rw [getPermissionWithQueryAsync_noApi env hq]
  simp only [Bool.false_eq_true, if_false, hb]

/-- C8: for audioRecording and camera with shouldAsk false and no
capability query, the resolver enumerates media devices and returns GRANTED
exactly when some enumerated device of the matching kind has a non-empty
label; otherwise it falls through to UNDETERMINED. -/
theorem media_fallback_device_enumeration (env : Env) (p kind : String)
    (devices : List MediaDeviceInfo) (hq : env.permissionsQuery = none)
    (hd : env.enumerateDevicesApi = some (Except.ok devices))
    (hp : (p = "audioRecording" ∧ kind = "audioinput") ∨
          (p = "camera" ∧ kind = "videoinput")) :
    ((∃ d ∈ devices, d.kind = kind ∧ d.label ≠ "") →
      getPermissionAsync env p false =
        Except.ok { status := PermissionStatus.GRANTED, expires := "never" }) ∧
    (¬(∃ d ∈ devices, d.kind = kind ∧ d.label ≠ "") →
      getPermissionAsync env p false =
        Except.ok { status := PermissionStatus.UNDETERMINED, expires := "never" }) := by
  rcases hp with ⟨rfl, rfl⟩ | ⟨rfl, rfl⟩
  · have hb := getMediaMaybeGrantedAsync_enumerated env devices hd "audioinput"
    constructor
    · intro hex
      rw [getPermissionAsync_audioRecording, audioRecordingCase_noAsk_noQuery env hq _ hb,
          if_pos ((any_filter_label_iff devices "audioinput").mpr hex)]
      rfl
    · intro hnex
      rw [getPermissionAsync_audioRecording, audioRecordingCase_noAsk_noQuery env hq _ hb,
          if_neg (fun hc => hnex ((any_filter_label_iff devices "audioinput").mp hc))]
      rfl
  · have hb := getMediaMaybeGrantedAsync_enumerated env devices hd "videoinput"
    constructor
    · intro hex
      rw [getPermissionAsync_camera, cameraCase_noAsk_noQuery env hq _ hb,
          if_pos ((any_filter_label_iff devices "videoinput").mpr hex)]
      rfl
    · intro hnex
      rw [getPermissionAsync_camera, cameraCase_noAsk_noQuery env hq _ hb,
          if_neg (fun hc => hnex ((any_filter_label_iff devices "videoinput").mp hc))]
      rfl

/-- Host exposing one labelled camera device through enumeration. -/
def envLabelledCamera : Env :=
  { enumerateDevicesApi := some (Except.ok [{ kind := "videoinput", label := "cam" }]) }

/-- C8 witness: a labelled videoinput device makes a passive camera check
resolve GRANTED. -/
theorem media_fallback_device_enumeration_witness :
    getPermissionAsync envLabelledCamera "camera" false =
      Except.ok { status := PermissionStatus.GRANTED, expires := "never" } :=
  (media_fallback_device_enumeration envLabelledCamera "camera" "videoinput"
    [{ kind := "videoinput", label := "cam" }] rfl rfl (Or.inr ⟨rfl, rfl⟩)).1
    ⟨{ kind := "videoinput", label := "cam" }, by decide⟩

/-- C7: every PermissionInfo produced by resolving any permission type with
any shouldAsk flag, and every entry of any successful getAsync or askAsync
map, has its expires field equal to the string never. -/
theorem every_result_expires_never (env : Env) :
    (∀ (p : String) (ask : Bool) (i : PermissionInfo),
      getPermissionAsync env p ask = Except.ok i → i.expires = "never") ∧
    (∀ (l : List String) (m : PermissionMap), getAsync env l = Except.ok m →
      ∀ e ∈ m, e.2.expires = "never") ∧
    (∀ (l : List String) (m : PermissionMap), askAsync env l = Except.ok m →
      ∀ e ∈ m, e.2.expires = "never") :=
  ⟨fun p ask i h => getPermissionAsync_expires env p ask i h,
   fun l m h => resolveEach_expires env false (setDedup l) m h,
   fun l m h => resolveEach_expires env true (setDedup l) m h⟩

/-- C7 witness: the expires field of a concrete resolution is never. -/
theorem every_result_expires_never_witness :
    getPermissionAsync {} "camera" false = Except.ok undeterminedInfo ∧
    undeterminedInfo.expires = "never" :=
  ⟨rfl, (every_result_expires_never {}).1 "camera" false undeterminedInfo rfl⟩

/-- A capability query reporting granted for every permission name. -/
def qAllGranted : String → Except HostError String := fun _ => Except.ok "granted"

/-- Host where the query reports granted everywhere but the native
Notification request resolves denied. -/
def envGrantedQueryDeniedRequest : Env :=
  { permissionsQuery := some qAllGranted,
    notification := some { permission := some "granted",
                           requestPermission := Except.ok "denied" } }

/-- C2 counterexample: the capability query reports granted for the
notifications type, yet resolving it with shouldAsk true returns denied,
because the asking path bypasses the query and follows the native
Notification request; in particular getAsync and askAsync disagree. -/
theorem query_granted_but_asking_notifications_denied :
    qAllGranted "notifications" = Except.ok "granted" ∧
    envGrantedQueryDeniedRequest.permissionsQuery = some qAllGranted ∧
    getPermissionAsync envGrantedQueryDeniedRequest "notifications" false =
      Except.ok { status := PermissionStatus.GRANTED, expires := "never" } ∧
    getPermissionAsync envGrantedQueryDeniedRequest "notifications" true =
      Except.ok { status := "denied", expires := "never" } ∧
    "denied" ≠ PermissionStatus.GRANTED :=
  ⟨rfl, rfl, rfl, rfl, by decide⟩

/-- C2 amended: when the capability query reports granted, location,
audioRecording and camera resolve GRANTED for every value of shouldAsk, and
notifications and userFacingNotifications resolve GRANTED when shouldAsk is
false; when asking for notifications the query is bypassed. -/
theorem query_granted_resolves_granted (env : Env)
    (q : String → Except HostError String) (hq : env.permissionsQuery = some q)
    (hg : ∀ n, q n = Except.ok "granted") (p : String) (ask : Bool)
    (hp : p = "location" ∨ p = "audioRecording" ∨ p = "camera" ∨
      ((p = "notifications" ∨ p = "userFacingNotifications") ∧ ask = false)) :
    getPermissionAsync env p ask =
      Except.ok { status := PermissionStatus.GRANTED, expires := "never" } := by
  rcases hp with rfl | rfl | rfl | ⟨hp, rfl⟩
  · rw [getPermissionAsync_location, locationCase_granted env q hq hg ask]; rfl
  · rw [getPermissionAsync_audioRecording, audioRecordingCase_granted env q hq hg ask]; rfl
  · rw [getPermissionAsync_camera, cameraCase_granted env q hq hg ask]; rfl
  · rcases hp with rfl | rfl
    · rw [getPermissionAsync_notifications, notificationsCase_granted env q hq hg]; rfl
    · rw [getPermissionAsync_userFacingNotifications,
          notificationsCase_granted env q hq hg]; rfl

/-- Host whose capability query reports granted for every name. -/
def envAllGranted : Env := { permissionsQuery := some qAllGranted }

/-- C2 witness: a granted query makes asking for location resolve GRANTED. -/
theorem query_granted_resolves_granted_witness :
    getPermissionAsync envAllGranted "location" true =
      Except.ok { status := PermissionStatus.GRANTED, expires := "never" } :=
  query_granted_resolves_granted envAllGranted qAllGranted rfl (fun _ => rfl)
    "location" true (Or.inl rfl)

/-- Host whose permissions query rejects, like a browser throwing on an
unsupported query name. -/
def envRejectingQuery : Env :=
  { permissionsQuery := some fun _ =>
      Except.error { name := "TypeError", message := "query failed" } }

/-- C1 counterexample: a rejection of the capability query propagates out
of the resolver and out of getAsync instead of being converted into a
status value, so resolution can reject. -/
theorem resolver_rejects_on_query_rejection :
    getPermissionAsync envRejectingQuery "location" false =
      Except.error { name := "TypeError", message := "query failed" } ∧
    getAsync envRejectingQuery ["location"] =
      Except.error { name := "TypeError", message := "query failed" } :=
  ⟨rfl, rfl⟩

/-- C1 amended: resolution of every permission type with every shouldAsk
flag succeeds with a status value whenever the capability query, the
Notification request and the device enumerations resolve and the
geolocation API is present; failures of the media request and of the
geolocation position request are always caught and mapped to statuses, but
rejections of those other host calls propagate to the caller. -/
theorem resolve_ok_of_benign_host (env : Env)
    (hq : ∀ q, env.permissionsQuery = some q → ∀ n, ∃ s, q n = Except.ok s)
    (hn : ∀ nf, env.notification = some nf → ∃ s, nf.requestPermission = Except.ok s)
    (hed : ∀ r, env.enumerateDevicesApi = some r → ∃ d, r = Except.ok d)
    (hgs : ∀ r, env.getSourcesApi = some r → ∃ d, r = Except.ok d)
    (g : GeoOutcome) (hgeo : env.geolocation = some g) (p : String) (ask : Bool) :
    ∃ i, getPermissionAsync env p ask = Except.ok i := by
  by_cases h1 : p = "userFacingNotifications"
  · subst h1
    rw [getPermissionAsync_userFacingNotifications]
    exact fromCase_ok _ (notificationsCase_ok env hq hn ask)
  · by_cases h2 : p = "notifications"
    · subst h2
      rw [getPermissionAsync_notifications]
      exact fromCase_ok _ (notificationsCase_ok env hq hn ask)
    · by_cases h3 : p = "location"
      · subst h3
        rw [getPermissionAsync_location]
        exact fromCase_ok _ (locationCase_ok env hq g hgeo ask)
      · by_cases h4 : p = "audioRecording"
        · subst h4
          rw [getPermissionAsync_audioRecording]
          exact fromCase_ok _ (audioRecordingCase_ok env hq hed hgs ask)
        · by_cases h5 : p = "camera"
          · subst h5
            rw [getPermissionAsync_camera]
            exact fromCase_ok _ (cameraCase_ok env hq hed hgs ask)
          · exact ⟨_, getPermissionAsync_unknown env p ask h1 h2 h3 h4 h5⟩

/-- Host with only a geolocation API that succeeds. -/
def envBenign : Env := { geolocation := some GeoOutcome.success }

/-- C1 witness: a benign host resolves location with asking. -/
theorem resolve_ok_of_benign_host_witness :
    ∃ i, getPermissionAsync envBenign "location" true = Except.ok i :=
  resolve_ok_of_benign_host envBenign
    (fun _ h => Option.noConfusion h) (fun _ h => Option.noConfusion h)
    (fun _ h => Option.noConfusion h) (fun _ h => Option.noConfusion h)
    GeoOutcome.success rfl "location" true

/-- Deduplicating a singleton gives the singleton. -/
theorem setDedup_single (x : String) : setDedup [x] = [x] := by
  simp [setDedup, setDedupAux]

/-- A successful batch over one dedup list transfers to any list with the
same members, with pointwise equal lookups. -/
theorem resolveBatch_order_insensitive (env : Env) (ask : Bool) (l1 l2 : List String)
    (hmem : ∀ t, t ∈ l1 ↔ t ∈ l2) (m1 : PermissionMap)
    (h1 : resolveEach env ask (setDedup l1) = Except.ok m1) :
    ∃ m2, resolveEach env ask (setDedup l2) = Except.ok m2 ∧
      ∀ t, m1.lookup t = m2.lookup t := by
  have hall := resolveEach_forall_of_ok env ask (setDedup l1) m1 h1
  have hall2 : ∀ t ∈ setDedup l2, ∃ i, getPermissionAsync env t ask = Except.ok i := by
    intro t ht
    exact hall t ((mem_setDedup t l1).mpr ((hmem t).mpr ((mem_setDedup t l2).mp ht)))
  obtain ⟨m2, h2⟩ := resolveEach_ok_of_forall env ask (setDedup l2) hall2
  refine ⟨m2, h2, fun t => ?_⟩
  rw [resolveEach_lookup env ask (setDedup l1) m1 h1 t,
      resolveEach_lookup env ask (setDedup l2) m2 h2 t]
  by_cases ht : t ∈ l1
  · rw [if_pos ((mem_setDedup t l1).mpr ht), if_pos ((mem_setDedup t l2).mpr ((hmem t).mp ht))]
  · rw [if_neg (fun hc => ht ((mem_setDedup t l1).mp hc)),
        if_neg (fun hc => ht ((hmem t).mpr ((mem_setDedup t l2).mp hc)))]

/-- The keys of a successful batch are the distinct requested types, each
exactly once. -/
theorem resolveBatch_keys (env : Env) (ask : Bool) (l : List String) (m : PermissionMap)
    (h : resolveEach env ask (setDedup l) = Except.ok m) :
    (∀ t, t ∈ m.map Prod.fst ↔ t ∈ l) ∧ (m.map Prod.fst).Nodup := by
  rw [resolveEach_keys env ask (setDedup l) m h]
  exact ⟨fun t => mem_setDedup t l, nodup_setDedup l⟩

/-- C6: getAsync and askAsync depend only on the set of distinct requested
types: a duplicated request equals the single request, lists with the same
members give pointwise equal maps, and a successful map holds exactly one
entry per distinct requested type. -/
theorem batch_set_semantics (env : Env) (x : String) (l1 l2 : List String)
    (hmem : ∀ t, t ∈ l1 ↔ t ∈ l2) :
    getAsync env [x, x] = getAsync env [x] ∧
    askAsync env [x, x] = askAsync env [x] ∧
    (∀ m1, getAsync env l1 = Except.ok m1 →
      ∃ m2, getAsync env l2 = Except.ok m2 ∧ ∀ t, m1.lookup t = m2.lookup t) ∧
    (∀ m1, askAsync env l1 = Except.ok m1 →
      ∃ m2, askAsync env l2 = Except.ok m2 ∧ ∀ t, m1.lookup t = m2.lookup t) ∧
    (∀ m, getAsync env l1 = Except.ok m →
      (∀ t, t ∈ m.map Prod.fst ↔ t ∈ l1) ∧ (m.map Prod.fst).Nodup) ∧
    (∀ m, askAsync env l1 = Except.ok m →
      (∀ t, t ∈ m.map Prod.fst ↔ t ∈ l1) ∧ (m.map Prod.fst).Nodup) := by
  refine ⟨?_, ?_, ?_, ?_, ?_, ?_⟩
  · unfold getAsync; rw [setDedup_pair, setDedup_single]
  · unfold askAsync; rw [setDedup_pair, setDedup_single]
  · exact fun m1 h1 => resolveBatch_order_insensitive env false l1 l2 hmem m1 h1
  · exact fun m1 h1 => resolveBatch_order_insensitive env true l1 l2 hmem m1 h1
  · exact fun m h => resolveBatch_keys env false l1 m h
  · exact fun m h => resolveBatch_keys env true l1 m h

/-- C6 witness: concrete lists with the same members, and collapse of a
duplicated camera request. -/
theorem batch_set_semantics_witness :
    (∀ t : String, t ∈ ["camera", "location"] ↔ t ∈ ["location", "camera"]) ∧
    getAsync {} ["camera", "camera"] = getAsync {} ["camera"] :=
  ⟨fun t => by simp [List.mem_cons, or_comm],
   (batch_set_semantics {} "camera" ["camera", "location"] ["location", "camera"]
     (fun t => by simp [List.mem_cons, or_comm])).1⟩

end ExpoWeb
